import Mathlib

/-!
Verification of the digital media catalog (business.js / persistence.js).

The two source files are embedded shallowly: each JSON collection is a
Lean list of records, each persistence function takes the collection it
would read from disk as an argument, and each mutating function returns
the collection that ends up stored together with a flag recording
whether a write to disk happened.
-/

/-- A user record from users.json: id, username, plaintext password. -/
structure User where
  id : Int
  username : String
  password : String
deriving Repr, DecidableEq

/-- An album record from albums.json: id and name. -/
structure Album where
  id : Int
  name : String
deriving Repr, DecidableEq

/-- A photo record from photos.json. The albums field may be absent or
not an array in the stored JSON; that case is modelled as none. -/
structure Photo where
  id : Int
  owner : Int
  filename : String
  title : String
  description : String
  date : String
  albums : Option (List Int)
  tags : List String
deriving Repr, DecidableEq

/-- Embedding of the JavaScript toLowerCase call on a string: the basic
latin case mapping applied to every character. -/
def jsToLower (s : String) : String :=
  String.mk (s.data.map Char.toLower)

/-- persistence.getUserByUsername: the first user whose username equals
the given string exactly (case-sensitive). -/
def getUserByUsername (users : List User) (username : String) : Option User :=
  users.find? (fun u => u.username == username)

/-- persistence.getAlbumById: the first album with the given id. -/
def getAlbumById (albums : List Album) (albumId : Int) : Option Album :=
  albums.find? (fun a => a.id == albumId)

/-- persistence.getAlbumByName: the first album whose lowercased name
equals the lowercased argument (case-insensitive match). -/
def getAlbumByName (albums : List Album) (name : String) : Option Album :=
  albums.find? (fun a => jsToLower a.name == jsToLower name)

/-- persistence.getPhotoById: the first photo with the given id. -/
def getPhotoById (photos : List Photo) (photoId : Int) : Option Photo :=
  photos.find? (fun p => p.id == photoId)

/-- The for-loop of persistence.updatePhotoById: overwrite title and
description on the first photo with a matching id, then break; the
boolean reports whether a match was found. -/
def updatePhotoLoop (photos : List Photo) (photoId : Int) (title description : String) :
    List Photo × Bool :=
  match photos with
  | [] => ([], false)
  | p :: rest =>
    if p.id == photoId then
      ({ p with title := title, description := description } :: rest, true)
    else
      let r := updatePhotoLoop rest photoId title description
      (p :: r.1, r.2)

/-- persistence.updatePhotoById: run the update loop and save the whole
collection back only when a record was updated. Returns the updated
flag, the stored collection after the call, and whether a write to the
photo file happened. -/
def updatePhotoById (photos : List Photo) (photoId : Int) (title description : String) :
    Bool × List Photo × Bool :=
  let r := updatePhotoLoop photos photoId title description
  if r.2 then (true, r.1, true) else (false, photos, false)

/-- The for-loop of persistence.addTagToPhoto: push the tag onto the
tag list of the first photo with a matching id, then break; no
duplicate filtering happens at this layer. -/
def addTagLoop (photos : List Photo) (photoId : Int) (tag : String) :
    List Photo × Bool :=
  match photos with
  | [] => ([], false)
  | p :: rest =>
    if p.id == photoId then
      ({ p with tags := p.tags ++ [tag] } :: rest, true)
    else
      let r := addTagLoop rest photoId tag
      (p :: r.1, r.2)

/-- persistence.addTagToPhoto: run the append loop and save the whole
collection back only when a record was updated. Returns the updated
flag, the stored collection after the call, and whether a write to the
photo file happened. -/
def addTagToPhoto (photos : List Photo) (photoId : Int) (tag : String) :
    Bool × List Photo × Bool :=
  let r := addTagLoop photos photoId tag
  if r.2 then (true, r.1, true) else (false, photos, false)

/-- persistence.listPhotosInAlbum: the photos whose albums field is an
array containing the given album id, in collection order; a photo with
an absent or malformed albums field is excluded. -/
def listPhotosInAlbum (photos : List Photo) (albumId : Int) : List Photo :=
  photos.filter (fun p =>
    match p.albums with
    | some l => l.contains albumId
    | none => false)

/-- The reduced user view returned by business.login: id and username
only; this type has no password field. -/
structure UserView where
  id : Int
  username : String
deriving Repr, DecidableEq

/-- business.login: look the user up by exact username, then require the
stored plaintext password to equal the given one exactly; on success
return the reduced view, otherwise undefined. -/
def login (users : List User) (username password : String) : Option UserView :=
  match getUserByUsername users username with
  | some user =>
    if user.password == password then
      some { id := user.id, username := user.username }
    else
      none
  | none => none

/-- Result of business.getOwnedPhoto: notFound models the error object
with message "Photo not found", accessDenied the one with message
"Access denied (not your photo)", and found the returned photo record. -/
inductive PhotoResult where
  | notFound
  | accessDenied
  | found (p : Photo)
deriving Repr, DecidableEq

/-- business.getOwnedPhoto: fetch the photo by id; not-found error when
it is absent, access-denied error when its owner differs from the
requesting user, the full record otherwise. -/
def getOwnedPhoto (photos : List Photo) (userId photoId : Int) : PhotoResult :=
  match getPhotoById photos photoId with
  | none => PhotoResult.notFound
  | some p =>
    if p.owner != userId then PhotoResult.accessDenied else PhotoResult.found p

/-- Result of business.updatePhotoDetails: notFound and accessDenied
model the two ok:false error objects; done ok models the final object
whose ok flag comes from the persistence write. -/
inductive UpdateResult where
  | notFound
  | accessDenied
  | done (ok : Bool)
deriving Repr, DecidableEq

/-- business.updatePhotoDetails with explicit state passing: returns the
result object, the stored photo collection after the call, and whether a
write to the photo file happened. -/
def updatePhotoDetails (photos : List Photo) (userId photoId : Int)
    (title description : String) : UpdateResult × List Photo × Bool :=
  match getPhotoById photos photoId with
  | none => (UpdateResult.notFound, photos, false)
  | some p =>
    if p.owner != userId then (UpdateResult.accessDenied, photos, false)
    else
      let r := updatePhotoById photos photoId title description
      (UpdateResult.done r.1, r.2.1, r.2.2)

/-- Result of business.addTag: notFound and accessDenied model the two
ok:false error objects, skipped models the object with ok:true and
skipped:true, and done ok models the final object whose ok flag comes
from the persistence write. -/
inductive TagResult where
  | notFound
  | accessDenied
  | skipped
  | done (ok : Bool)
deriving Repr, DecidableEq

/-- business.addTag with the two fresh reads of the photo collection
made explicit: photosAtFetch is the collection seen by the ownership
fetch and photosAtWrite the collection seen by the later
persistence.addTagToPhoto read. Returns the result object, the stored
collection after the call, and whether a write happened. -/
def addTagRW (photosAtFetch photosAtWrite : List Photo) (userId photoId : Int)
    (tag : String) : TagResult × List Photo × Bool :=
  match getPhotoById photosAtFetch photoId with
  | none => (TagResult.notFound, photosAtWrite, false)
  | some p =>
    if p.owner != userId then (TagResult.accessDenied, photosAtWrite, false)
    else
      let t := jsToLower tag
      if p.tags.contains t then (TagResult.skipped, photosAtWrite, false)
      else
        let r := addTagToPhoto photosAtWrite photoId t
        (TagResult.done r.1, r.2.1, r.2.2)

/-- business.addTag in the sequential execution model: nothing changes
the store between the ownership fetch and the persistence write, so the
two reads see the same collection. -/
def addTag (photos : List Photo) (userId photoId : Int) (tag : String) :
    TagResult × List Photo × Bool :=
  addTagRW photos photos userId photoId tag

/-- Result of business.getUserPhotosInAlbum: either the album-not-found
error object, or the album record together with the photos of the
requesting user in that album. -/
inductive AlbumPhotosResult where
  | notFound
  | found (album : Album) (photos : List Photo)
deriving Repr, DecidableEq

/-- business.getUserPhotosInAlbum: resolve the album by case-insensitive
name; when absent fail, otherwise list the photos in that album and keep
those owned by the requesting user. -/
def getUserPhotosInAlbum (albums : List Album) (photos : List Photo) (userId : Int)
    (albumName : String) : AlbumPhotosResult :=
  match getAlbumByName albums albumName with
  | none => AlbumPhotosResult.notFound
  | some album =>
    let all := listPhotosInAlbum photos album.id
    AlbumPhotosResult.found album (all.filter (fun p => p.owner == userId))

/-- The tag invariant of the data model: the stored tags of a photo are
lowercase strings and pairwise distinct. -/
def tagsLowercaseNodup (p : Photo) : Prop :=
  (∀ t ∈ p.tags, jsToLower t = t) ∧ p.tags.Nodup

/-- The tag invariant extended to a whole photo collection. -/
def tagInvariant (photos : List Photo) : Prop :=
  ∀ p ∈ photos, tagsLowercaseNodup p

/-- A tag list with no duplicate values under case-insensitive
comparison. -/
def tagsCiNodup (p : Photo) : Prop :=
  p.tags.Pairwise (fun a b => jsToLower a ≠ jsToLower b)

/-- A sample photo used to instantiate theorems at concrete inputs. -/
def samplePhoto : Photo :=
  { id := 7, owner := 1, filename := "a.jpg", title := "Old",
    description := "d", date := "2024-01-01T00:00:00Z",
    albums := some [1], tags := ["tree"] }

/-- A sample one-photo collection. -/
def samplePhotos : List Photo := [samplePhoto]

/-- A sample user collection. -/
def sampleUsers : List User :=
  [{ id := 1, username := "alice", password := "pw" }]

/-- A sample album collection. -/
def sampleAlbums : List Album :=
  [{ id := 1, name := "Travel" }]

/-- A second photo record sharing the id of samplePhoto, used to
instantiate the duplicate-id claim at a concrete input. -/
def duplicatePhoto : Photo :=
  { samplePhoto with description := "second record with id 7" }

/-! Helper lemmas shared across the development. -/

/-- Membership in a list is equivalent to the boolean contains test, for
types whose boolean equality is lawful. -/
theorem contains_iff_mem {α : Type _} [BEq α] [LawfulBEq α] (l : List α) (a : α) :
    l.contains a = true ↔ a ∈ l := by
  simp [List.contains, List.elem_iff]

/-- A successful getPhotoById splits the collection into a prefix with
no matching id, the found record, and a suffix. -/
theorem getPhotoById_decomp {photos : List Photo} {photoId : Int} {p : Photo}
    (h : getPhotoById photos photoId = some p) :
    ∃ l1 l2, photos = l1 ++ p :: l2 ∧ (∀ q ∈ l1, q.id ≠ photoId) ∧ p.id = photoId := by
  induction photos with
  | nil => simp [getPhotoById] at h
  | cons q rest ih =>
    rw [getPhotoById] at h
    by_cases hq : q.id = photoId
    · rw [List.find?_cons_of_pos _ (by simpa using hq)] at h
      refine ⟨[], rest, ?_, by simp, ?_⟩
      · simp at h
        simp [h]
      · simp at h
        simp [← h, hq]
    · rw [List.find?_cons_of_neg _ (by simpa using hq)] at h
      obtain ⟨l1, l2, heq, hl1, hp⟩ := ih h
      exact ⟨q :: l1, l2, by simp [heq], by simpa [hq] using hl1, hp⟩

/-- getPhotoById returns the head of the matching suffix when the prefix
contains no matching id. -/
theorem getPhotoById_append {l1 l2 : List Photo} {p : Photo} {photoId : Int}
    (hl1 : ∀ q ∈ l1, q.id ≠ photoId) (hp : p.id = photoId) :
    getPhotoById (l1 ++ p :: l2) photoId = some p := by
  induction l1 with
  | nil =>
    have hb : (p.id == photoId) = true := by simp [hp]
    simp [getPhotoById, List.find?, hb]
  | cons q rest ih =>
    have hq : q.id ≠ photoId := hl1 q (by simp)
    rw [getPhotoById, List.cons_append, List.find?_cons_of_neg _ (by simpa using hq)]
    exact ih (fun r hr => hl1 r (by simp [hr]))

/-- The update loop rewrites exactly the first matching record and
leaves the prefix and suffix untouched. -/
theorem updatePhotoLoop_append (l1 l2 : List Photo) (p : Photo) (photoId : Int)
    (title description : String)
    (hl1 : ∀ q ∈ l1, q.id ≠ photoId) (hp : p.id = photoId) :
    updatePhotoLoop (l1 ++ p :: l2) photoId title description =
      (l1 ++ { p with title := title, description := description } :: l2, true) := by
  induction l1 with
  | nil => simp [updatePhotoLoop, hp]
  | cons q rest ih =>
    have hq : q.id ≠ photoId := hl1 q (by simp)
    rw [List.cons_append, updatePhotoLoop]
    simp only [beq_iff_eq, hq, if_false]
    rw [ih (fun r hr => hl1 r (by simp [hr]))]
    simp

/-- The tag append loop rewrites exactly the first matching record and
leaves the prefix and suffix untouched. -/
theorem addTagLoop_append (l1 l2 : List Photo) (p : Photo) (photoId : Int) (tag : String)
    (hl1 : ∀ q ∈ l1, q.id ≠ photoId) (hp : p.id = photoId) :
    addTagLoop (l1 ++ p :: l2) photoId tag =
      (l1 ++ { p with tags := p.tags ++ [tag] } :: l2, true) := by
  induction l1 with
  | nil => simp [addTagLoop, hp]
  | cons q rest ih =>
    have hq : q.id ≠ photoId := hl1 q (by simp)
    rw [List.cons_append, addTagLoop]
    simp only [beq_iff_eq, hq, if_false]
    rw [ih (fun r hr => hl1 r (by simp [hr]))]
    simp

/-- The basic latin case mapping is idempotent on characters. -/
theorem char_toLower_idem (c : Char) : c.toLower.toLower = c.toLower := by
  unfold Char.toLower
  by_cases h : c.toNat ≥ 65 ∧ c.toNat ≤ 90
  · rw [if_pos h]
    have hv : Nat.isValidChar (c.toNat + 32) := Or.inl (by omega)
    have ht : (Char.ofNat (c.toNat + 32)).toNat = c.toNat + 32 := by
      rw [Char.ofNat, dif_pos hv]
      rfl
    rw [if_neg]
    rw [ht]
    omega
  · rw [if_neg h, if_neg h]

/-- The embedded toLowerCase call is idempotent on strings. -/
theorem jsToLower_idem (s : String) : jsToLower (jsToLower s) = jsToLower s := by
  show String.mk ((s.data.map Char.toLower).map Char.toLower)
      = String.mk (s.data.map Char.toLower)
  rw [List.map_map]
  exact congrArg String.mk (List.map_congr_left (fun c _ => char_toLower_idem c))

/-- C1: getOwnedPhoto is a total trichotomy over the photo collection:
a photo id that is absent yields notFound for every user; when the first
photo with the id has a different owner the result is accessDenied; and
when that photo has the requesting user as owner the result is the
stored record itself. -/
theorem c1_getOwnedPhoto_trichotomy (photos : List Photo) (u pid : Int) :
    ((∀ q ∈ photos, q.id ≠ pid) → getOwnedPhoto photos u pid = PhotoResult.notFound) ∧
    (∀ p, getPhotoById photos pid = some p →
      (p.owner ≠ u → getOwnedPhoto photos u pid = PhotoResult.accessDenied) ∧
      (p.owner = u → getOwnedPhoto photos u pid = PhotoResult.found p)) := by
  constructor
  · intro hall
    have hnone : getPhotoById photos pid = none := by
      rw [getPhotoById, List.find?_eq_none]
      intro x hx
      simp [hall x hx]
    simp [getOwnedPhoto, hnone]
  · intro p hp
    constructor
    · intro hne
      simp [getOwnedPhoto, hp, hne]
    · intro heq
      simp [getOwnedPhoto, hp, heq]

/-- Witness for C1: the three branches at concrete inputs. -/
theorem c1_witness :
    getOwnedPhoto samplePhotos 1 7 = PhotoResult.found samplePhoto ∧
    getOwnedPhoto samplePhotos 2 7 = PhotoResult.accessDenied ∧
    getOwnedPhoto samplePhotos 1 9 = PhotoResult.notFound :=
  ⟨((c1_getOwnedPhoto_trichotomy samplePhotos 1 7).2 samplePhoto (by decide)).2 (by decide),
   ((c1_getOwnedPhoto_trichotomy samplePhotos 2 7).2 samplePhoto (by decide)).1 (by decide),
   (c1_getOwnedPhoto_trichotomy samplePhotos 1 9).1 (by decide)⟩

/-- C2: after a successful updatePhotoDetails by the owner, the stored
collection equals the prior one except that the first photo with the
given id has the new title and description, with every other field and
every other record unchanged, and a subsequent getOwnedPhoto returns
exactly that updated record. -/
theorem c2_updatePhotoDetails_roundtrip (photos : List Photo) (u pid : Int)
    (T D : String) (p : Photo)
    (hfind : getPhotoById photos pid = some p) (hown : p.owner = u) :
    (updatePhotoDetails photos u pid T D).1 = UpdateResult.done true ∧
    (∃ l1 l2, photos = l1 ++ p :: l2 ∧ (∀ q ∈ l1, q.id ≠ pid) ∧
      (updatePhotoDetails photos u pid T D).2.1 =
        l1 ++ { p with title := T, description := D } :: l2) ∧
    getOwnedPhoto (updatePhotoDetails photos u pid T D).2.1 u pid =
      PhotoResult.found { p with title := T, description := D } := by
  obtain ⟨l1, l2, heq, hl1, hp⟩ := getPhotoById_decomp hfind
  subst heq
  have hloop := updatePhotoLoop_append l1 l2 p pid T D hl1 hp
  have hupd : updatePhotoDetails (l1 ++ p :: l2) u pid T D =
      (UpdateResult.done true, l1 ++ { p with title := T, description := D } :: l2, true) := by
    simp [updatePhotoDetails, hfind, hown, updatePhotoById, hloop]
  refine ⟨by rw [hupd], ⟨l1, l2, rfl, hl1, by rw [hupd]⟩, ?_⟩
  rw [hupd]
  have hfind2 : getPhotoById (l1 ++ { p with title := T, description := D } :: l2) pid =
      some { p with title := T, description := D } :=
    getPhotoById_append hl1 hp
  simp only [getOwnedPhoto, hfind2]
  simp [hown]

/-- Witness for C2 at concrete inputs. -/
theorem c2_witness :
    (updatePhotoDetails samplePhotos 1 7 "New" "desc").1 = UpdateResult.done true ∧
    getOwnedPhoto (updatePhotoDetails samplePhotos 1 7 "New" "desc").2.1 1 7 =
      PhotoResult.found { samplePhoto with title := "New", description := "desc" } :=
  ⟨(c2_updatePhotoDetails_roundtrip samplePhotos 1 7 "New" "desc" samplePhoto
      (by decide) (by decide)).1,
   (c2_updatePhotoDetails_roundtrip samplePhotos 1 7 "New" "desc" samplePhoto
      (by decide) (by decide)).2.2⟩

/-- C3: addTag is idempotent in its normalized tag: for a photo owned by
the requesting user, a second call whose tag normalizes to the same
lowercase string returns the skipped result without writing, and the
stored collection after the second call equals the one after the first
call. -/
theorem c3_addTag_idempotent (photos : List Photo) (u pid : Int) (tag1 tag2 : String)
    (p : Photo) (hfind : getPhotoById photos pid = some p) (hown : p.owner = u)
    (hnorm : jsToLower tag1 = jsToLower tag2) :
    (addTag (addTag photos u pid tag1).2.1 u pid tag2).1 = TagResult.skipped ∧
    (addTag (addTag photos u pid tag1).2.1 u pid tag2).2.2 = false ∧
    (addTag (addTag photos u pid tag1).2.1 u pid tag2).2.1 =
      (addTag photos u pid tag1).2.1 := by
  by_cases hc : p.tags.contains (jsToLower tag1) = true
  · have hm : jsToLower tag1 ∈ p.tags := (contains_iff_mem _ _).mp hc
    have hm2 : jsToLower tag2 ∈ p.tags := hnorm ▸ hm
    have h1 : addTag photos u pid tag1 = (TagResult.skipped, photos, false) := by
      simp only [addTag, addTagRW, hfind]
      simp [hown, hm]
    have h2 : addTag photos u pid tag2 = (TagResult.skipped, photos, false) := by
      simp only [addTag, addTagRW, hfind]
      simp [hown, hm2]
    rw [h1]
    simp [h2]
  · have hnm : jsToLower tag1 ∉ p.tags := fun hm => hc ((contains_iff_mem _ _).mpr hm)
    obtain ⟨l1, l2, heq, hl1, hp⟩ := getPhotoById_decomp hfind
    subst heq
    have hloop := addTagLoop_append l1 l2 p pid (jsToLower tag1) hl1 hp
    have h1 : addTag (l1 ++ p :: l2) u pid tag1 =
        (TagResult.done true,
          l1 ++ { p with tags := p.tags ++ [jsToLower tag1] } :: l2, true) := by
      simp only [addTag, addTagRW, hfind]
      simp [hown, hnm, addTagToPhoto, hloop]
    have hfind2 : getPhotoById (l1 ++ { p with tags := p.tags ++ [jsToLower tag1] } :: l2) pid =
        some { p with tags := p.tags ++ [jsToLower tag1] } :=
      getPhotoById_append hl1 hp
    have h2 : addTag (l1 ++ { p with tags := p.tags ++ [jsToLower tag1] } :: l2) u pid tag2 =
        (TagResult.skipped, l1 ++ { p with tags := p.tags ++ [jsToLower tag1] } :: l2, false) := by
      simp only [addTag, addTagRW, hfind2]
      simp [hown, hnorm.symm]
    rw [h1]
    simp [h2]

/-- Witness for C3 at concrete inputs. -/
theorem c3_witness :
    (addTag (addTag samplePhotos 1 7 "Sunset").2.1 1 7 "SUNSET").1 = TagResult.skipped ∧
    (addTag (addTag samplePhotos 1 7 "Sunset").2.1 1 7 "SUNSET").2.2 = false ∧
    (addTag (addTag samplePhotos 1 7 "Sunset").2.1 1 7 "SUNSET").2.1 =
      (addTag samplePhotos 1 7 "Sunset").2.1 :=
  c3_addTag_idempotent samplePhotos 1 7 "Sunset" "SUNSET" samplePhoto
    (by decide) (by decide) (by decide)

/-- With pairwise distinct usernames, any member with a matching
username is the record getUserByUsername returns. -/
theorem getUserByUsername_of_mem {users : List User} {u : User} {username : String}
    (huniq : users.Pairwise (fun a b => a.username ≠ b.username))
    (hmem : u ∈ users) (hname : u.username = username) :
    getUserByUsername users username = some u := by
  induction users with
  | nil => simp at hmem
  | cons v rest ih =>
    rcases List.mem_cons.mp hmem with rfl | hmem2
    · have hb : (u.username == username) = true := by simp [hname]
      simp [getUserByUsername, List.find?, hb]
    · have hv : v.username ≠ username := by
        intro h
        exact (List.pairwise_cons.mp huniq).1 u hmem2 (h.trans hname.symm)
      have hb : (v.username == username) = false := by simp [hv]
      rw [getUserByUsername]
      simp only [List.find?, hb]
      exact ih (List.pairwise_cons.mp huniq).2 hmem2

/-- C4: login succeeds exactly when an exact (case-sensitive) username
match exists whose stored password equals the given one exactly, in
which case the result is the reduced id-and-username view; in every
other case the result is absent. Usernames are assumed unique as stated
by the data model. -/
theorem c4_login_spec (users : List User) (username password : String)
    (huniq : users.Pairwise (fun a b => a.username ≠ b.username)) :
    (∀ u ∈ users, u.username = username → u.password = password →
      login users username password = some { id := u.id, username := u.username }) ∧
    ((∀ u ∈ users, u.username ≠ username ∨ u.password ≠ password) →
      login users username password = none) := by
  constructor
  · intro u hmem hname hpass
    have hfind := getUserByUsername_of_mem huniq hmem hname
    simp [login, hfind, hpass]
  · intro hall
    cases hfound : getUserByUsername users username with
    | none => simp [login, hfound]
    | some v =>
      have hmem : v ∈ users := List.mem_of_find?_eq_some hfound
      have hname : v.username = username := by
        have hb := List.find?_some hfound
        simpa using hb
      rcases hall v hmem with h | h
      · exact absurd hname h
      · simp [login, hfound, h]

/-- Witness for C4 at concrete inputs. -/
theorem c4_witness :
    login sampleUsers "alice" "pw" = some { id := 1, username := "alice" } ∧
    login sampleUsers "alice" "bad" = none := by
  constructor
  · exact (c4_login_spec sampleUsers "alice" "pw" (by simp [sampleUsers])).1
      { id := 1, username := "alice", password := "pw" } (by simp [sampleUsers]) rfl rfl
  · refine (c4_login_spec sampleUsers "alice" "bad" (by simp [sampleUsers])).2 ?_
    intro u hu
    have hu2 : u = { id := 1, username := "alice", password := "pw" } := by
      simpa [sampleUsers] using hu
    subst hu2
    exact Or.inr (by decide)

/-- C5: failure atomicity: whenever updatePhotoDetails returns the
not-found or access-denied error, and whenever addTag returns the
not-found or access-denied error or the skipped result, the stored
collection is unchanged and no write happened. -/
theorem c5_failure_atomicity (photos : List Photo) (u pid : Int) (T D tag : String) :
    ((updatePhotoDetails photos u pid T D).1 = UpdateResult.notFound ∨
     (updatePhotoDetails photos u pid T D).1 = UpdateResult.accessDenied →
      (updatePhotoDetails photos u pid T D).2.1 = photos ∧
      (updatePhotoDetails photos u pid T D).2.2 = false) ∧
    ((addTag photos u pid tag).1 = TagResult.notFound ∨
     (addTag photos u pid tag).1 = TagResult.accessDenied ∨
     (addTag photos u pid tag).1 = TagResult.skipped →
      (addTag photos u pid tag).2.1 = photos ∧
      (addTag photos u pid tag).2.2 = false) := by
  constructor
  · intro h
    cases hfound : getPhotoById photos pid with
    | none => simp [updatePhotoDetails, hfound]
    | some p =>
      by_cases howner : p.owner = u
      · exfalso
        rcases h with h | h <;>
          simp [updatePhotoDetails, hfound, howner] at h
      · simp [updatePhotoDetails, hfound, howner]
  · intro h
    cases hfound : getPhotoById photos pid with
    | none => simp [addTag, addTagRW, hfound]
    | some p =>
      by_cases howner : p.owner = u
      · by_cases hc : jsToLower tag ∈ p.tags
        · simp [addTag, addTagRW, hfound, howner, hc]
        · exfalso
          rcases h with h | h | h <;>
            simp [addTag, addTagRW, hfound, howner, hc] at h
      · simp [addTag, addTagRW, hfound, howner]

/-- Witness for C5: the access-denied example of the spec, with an
unchanged store and no write. -/
theorem c5_witness :
    ((updatePhotoDetails samplePhotos 2 7 "x" "y").2.1 = samplePhotos ∧
     (updatePhotoDetails samplePhotos 2 7 "x" "y").2.2 = false) ∧
    ((addTag samplePhotos 2 7 "Tree").2.1 = samplePhotos ∧
     (addTag samplePhotos 2 7 "Tree").2.2 = false) :=
  ⟨(c5_failure_atomicity samplePhotos 2 7 "x" "y" "Tree").1 (Or.inr (by decide)),
   (c5_failure_atomicity samplePhotos 2 7 "x" "y" "Tree").2 (Or.inr (Or.inl (by decide)))⟩

/-- The lowercase-and-distinct tag invariant rules out duplicates under
case-insensitive comparison. -/
theorem tagsLowercaseNodup_ciNodup {p : Photo} (h : tagsLowercaseNodup p) :
    tagsCiNodup p := by
  obtain ⟨hlow, hnd⟩ := h
  exact List.Pairwise.imp_of_mem
    (fun ha hb hne => by rw [hlow _ ha, hlow _ hb]; exact hne) hnd

/-- addTag preserves the lowercase-and-distinct tag invariant. -/
theorem addTag_keeps_tagInvariant (photos : List Photo) (u pid : Int) (tag : String)
    (hinv : tagInvariant photos) : tagInvariant (addTag photos u pid tag).2.1 := by
  cases hfound : getPhotoById photos pid with
  | none => simpa [addTag, addTagRW, hfound] using hinv
  | some p =>
    by_cases howner : p.owner = u
    · by_cases hc : jsToLower tag ∈ p.tags
      · simpa [addTag, addTagRW, hfound, howner, hc] using hinv
      · obtain ⟨l1, l2, heq, hl1, hp⟩ := getPhotoById_decomp hfound
        subst heq
        have hloop := addTagLoop_append l1 l2 p pid (jsToLower tag) hl1 hp
        have hstate : (addTag (l1 ++ p :: l2) u pid tag).2.1 =
            l1 ++ { p with tags := p.tags ++ [jsToLower tag] } :: l2 := by
          simp only [addTag, addTagRW, hfound]
          simp [howner, hc, addTagToPhoto, hloop]
        rw [hstate]
        intro q hq
        rcases List.mem_append.mp hq with hq1 | hq2
        · exact hinv q (List.mem_append_left _ hq1)
        · rcases List.mem_cons.mp hq2 with rfl | hq3
          · obtain ⟨hlow, hnd⟩ := hinv p (by simp)
            simp only [tagsLowercaseNodup]
            constructor
            · intro t ht
              rcases List.mem_append.mp ht with ht1 | ht2
              · exact hlow t ht1
              · rw [List.mem_singleton.mp ht2]
                exact jsToLower_idem tag
            · rw [List.nodup_append]
              refine ⟨hnd, List.nodup_singleton _, ?_⟩
              intro a ha hb
              rw [List.mem_singleton.mp hb] at ha
              exact hc ha
          · exact hinv q (by simp [hq3])
    · simpa [addTag, addTagRW, hfound, howner] using hinv

/-- updatePhotoDetails preserves the lowercase-and-distinct tag
invariant, because it never touches a tag list. -/
theorem updatePhotoDetails_keeps_tagInvariant (photos : List Photo) (u pid : Int)
    (T D : String) (hinv : tagInvariant photos) :
    tagInvariant (updatePhotoDetails photos u pid T D).2.1 := by
  cases hfound : getPhotoById photos pid with
  | none => simpa [updatePhotoDetails, hfound] using hinv
  | some p =>
    by_cases howner : p.owner = u
    · obtain ⟨l1, l2, heq, hl1, hp⟩ := getPhotoById_decomp hfound
      subst heq
      have hloop := updatePhotoLoop_append l1 l2 p pid T D hl1 hp
      have hstate : (updatePhotoDetails (l1 ++ p :: l2) u pid T D).2.1 =
          l1 ++ { p with title := T, description := D } :: l2 := by
        simp only [updatePhotoDetails, hfound]
        simp [howner, updatePhotoById, hloop]
      rw [hstate]
      intro q hq
      rcases List.mem_append.mp hq with hq1 | hq2
      · exact hinv q (List.mem_append_left _ hq1)
      · rcases List.mem_cons.mp hq2 with rfl | hq3
        · exact hinv p (by simp)
        · exact hinv q (by simp [hq3])
    · simpa [updatePhotoDetails, hfound, howner] using hinv

/-- C6: if every stored tag list is lowercase and pairwise distinct (the
formulation the data model gives for the absence of case-insensitive
duplicates), then after any addTag or updatePhotoDetails call the stored
tag lists are again lowercase and pairwise distinct, hence free of
case-insensitive duplicates; read operations return state unchanged. -/
theorem c6_tag_invariant_preserved (photos : List Photo) (u pid : Int)
    (T D tag : String) (hinv : tagInvariant photos) :
    tagInvariant (addTag photos u pid tag).2.1 ∧
    tagInvariant (updatePhotoDetails photos u pid T D).2.1 ∧
    (∀ p ∈ (addTag photos u pid tag).2.1, tagsCiNodup p) ∧
    (∀ p ∈ (updatePhotoDetails photos u pid T D).2.1, tagsCiNodup p) := by
  have h1 := addTag_keeps_tagInvariant photos u pid tag hinv
  have h2 := updatePhotoDetails_keeps_tagInvariant photos u pid T D hinv
  exact ⟨h1, h2, fun p hp => tagsLowercaseNodup_ciNodup (h1 p hp),
    fun p hp => tagsLowercaseNodup_ciNodup (h2 p hp)⟩

/-- Witness for C6 at concrete inputs. -/
theorem c6_witness :
    tagInvariant (addTag samplePhotos 1 7 "Sunset").2.1 ∧
    tagInvariant (updatePhotoDetails samplePhotos 1 7 "New" "desc").2.1 :=
  ⟨(c6_tag_invariant_preserved samplePhotos 1 7 "New" "desc" "Sunset"
      (by intro p hp; rw [List.mem_singleton.mp hp]; exact ⟨by decide, by decide⟩)).1,
   (c6_tag_invariant_preserved samplePhotos 1 7 "New" "desc" "Sunset"
      (by intro p hp; rw [List.mem_singleton.mp hp]; exact ⟨by decide, by decide⟩)).2.1⟩

/-- C7: getUserPhotosInAlbum yields the not-found error exactly when no
album name matches the argument case-insensitively; otherwise it
resolves the first such album and returns exactly the photos whose
albums field contains that album id and whose owner is the requesting
user, in collection order. -/
theorem c7_getUserPhotosInAlbum_spec (albums : List Album) (photos : List Photo)
    (u : Int) (albumName : String) :
    (getUserPhotosInAlbum albums photos u albumName = AlbumPhotosResult.notFound ↔
      ∀ a ∈ albums, jsToLower a.name ≠ jsToLower albumName) ∧
    (∀ album ps,
      getUserPhotosInAlbum albums photos u albumName =
        AlbumPhotosResult.found album ps →
      getAlbumByName albums albumName = some album ∧
      ps = photos.filter (fun p =>
        (match p.albums with
         | some l => l.contains album.id
         | none => false) && p.owner == u)) := by
  constructor
  · constructor
    · intro h
      cases hfound : getAlbumByName albums albumName with
      | none =>
        intro a ha
        have hb := List.find?_eq_none.mp hfound a ha
        simpa using hb
      | some alb => simp [getUserPhotosInAlbum, hfound] at h
    · intro hall
      have hnone : getAlbumByName albums albumName = none := by
        rw [getAlbumByName, List.find?_eq_none]
        intro a ha
        simp [hall a ha]
      simp [getUserPhotosInAlbum, hnone]
  · intro album ps h
    cases hfound : getAlbumByName albums albumName with
    | none => simp [getUserPhotosInAlbum, hfound] at h
    | some alb =>
      simp only [getUserPhotosInAlbum, hfound] at h
      injection h with h1 h2
      subst h1
      subst h2
      refine ⟨rfl, ?_⟩
      rw [listPhotosInAlbum, List.filter_filter]
      exact List.filter_congr (fun p _ => Bool.and_comm _ _)

/-- Witness for C7: an unknown album name and the resolved case of a
known album name at concrete inputs. -/
theorem c7_witness :
    (getUserPhotosInAlbum sampleAlbums samplePhotos 1 "nowhere" =
      AlbumPhotosResult.notFound) ∧
    getAlbumByName sampleAlbums "TRAVEL" = some { id := 1, name := "Travel" } := by
  constructor
  · exact (c7_getUserPhotosInAlbum_spec sampleAlbums samplePhotos 1 "nowhere").1.mpr
      (by intro a ha; rw [List.mem_singleton.mp ha]; decide)
  · rcases halb : getUserPhotosInAlbum sampleAlbums samplePhotos 1 "TRAVEL" with _ | ⟨alb, ps⟩
    · have hne := (c7_getUserPhotosInAlbum_spec sampleAlbums samplePhotos 1 "TRAVEL").1.mp
        halb { id := 1, name := "Travel" } (by simp [sampleAlbums])
      exact absurd (by decide) hne
    · have hres := ((c7_getUserPhotosInAlbum_spec sampleAlbums samplePhotos 1 "TRAVEL").2
        alb ps halb).1
      have halb2 : alb = { id := 1, name := "Travel" } := by
        have hmem := List.mem_of_find?_eq_some hres
        simpa [sampleAlbums] using hmem
      exact halb2 ▸ hres

/-- C8: under the precondition that the collection read by the ownership
fetch equals the collection read by the persistence write, the ok:false
branch of addTag is unreachable: the result is never done false. -/
theorem c8_addTag_ok_false_unreachable (photosAtFetch photosAtWrite : List Photo)
    (u pid : Int) (tag : String) (hsame : photosAtFetch = photosAtWrite) :
    (addTagRW photosAtFetch photosAtWrite u pid tag).1 ≠ TagResult.done false := by
  subst hsame
  cases hfound : getPhotoById photosAtFetch pid with
  | none => simp [addTagRW, hfound]
  | some p =>
    by_cases howner : p.owner = u
    · by_cases hc : jsToLower tag ∈ p.tags
      · simp [addTagRW, hfound, howner, hc]
      · obtain ⟨l1, l2, heq, hl1, hp⟩ := getPhotoById_decomp hfound
        subst heq
        have hloop := addTagLoop_append l1 l2 p pid (jsToLower tag) hl1 hp
        simp only [addTagRW, hfound]
        simp [howner, hc, addTagToPhoto, hloop]
    · simp [addTagRW, hfound, howner]

/-- Witness for C8 at concrete inputs. -/
theorem c8_witness :
    (addTagRW samplePhotos samplePhotos 1 7 "new").1 ≠ TagResult.done false :=
  c8_addTag_ok_false_unreachable samplePhotos samplePhotos 1 7 "new" rfl

/-- C9: listPhotosInAlbum returns exactly the photos whose albums field
is present and contains the album id, in collection order (a sublist of
the collection); photos with an absent or malformed albums field are
excluded, and no error is possible since the function is total. -/
theorem c9_listPhotosInAlbum_spec (photos : List Photo) (albumId : Int) :
    (listPhotosInAlbum photos albumId).Sublist photos ∧
    (∀ p, p ∈ listPhotosInAlbum photos albumId ↔
      p ∈ photos ∧ ∃ l, p.albums = some l ∧ albumId ∈ l) := by
  constructor
  · exact List.filter_sublist _
  · intro p
    rw [listPhotosInAlbum, List.mem_filter]
    constructor
    · rintro ⟨hmem, hcond⟩
      refine ⟨hmem, ?_⟩
      cases halb : p.albums with
      | none => rw [halb] at hcond; simp at hcond
      | some l =>
        rw [halb] at hcond
        exact ⟨l, rfl, (contains_iff_mem _ _).mp hcond⟩
    · rintro ⟨hmem, l, halb, hin⟩
      refine ⟨hmem, ?_⟩
      rw [halb]
      exact (contains_iff_mem _ _).mpr hin

/-- Witness for C9: a photo whose albums field contains the id is in the
result at a concrete input. -/
theorem c9_witness : samplePhoto ∈ listPhotosInAlbum samplePhotos 1 :=
  ((c9_listPhotosInAlbum_spec samplePhotos 1).2 samplePhoto).mpr
    ⟨by decide, [1], rfl, by decide⟩

/-- C10: when several records share an id, every operation agrees on the
first one in collection order: getPhotoById returns it, and
updatePhotoById and addTagToPhoto modify exactly it, leaving every
record before and after it (including later records with the same id)
unchanged. -/
theorem c10_first_match_agreement (l1 l2 : List Photo) (p : Photo) (pid : Int)
    (T D tag : String)
    (hl1 : ∀ q ∈ l1, q.id ≠ pid) (hp : p.id = pid) :
    getPhotoById (l1 ++ p :: l2) pid = some p ∧
    updatePhotoById (l1 ++ p :: l2) pid T D =
      (true, l1 ++ { p with title := T, description := D } :: l2, true) ∧
    addTagToPhoto (l1 ++ p :: l2) pid tag =
      (true, l1 ++ { p with tags := p.tags ++ [tag] } :: l2, true) := by
  refine ⟨getPhotoById_append hl1 hp, ?_, ?_⟩
  · simp [updatePhotoById, updatePhotoLoop_append l1 l2 p pid T D hl1 hp]
  · simp [addTagToPhoto, addTagLoop_append l1 l2 p pid tag hl1 hp]

/-- Witness for C10: a collection with two records with the same id at
concrete inputs. -/
theorem c10_witness :
    getPhotoById ([] ++ samplePhoto :: [duplicatePhoto]) 7 = some samplePhoto ∧
    updatePhotoById ([] ++ samplePhoto :: [duplicatePhoto]) 7 "T" "D" =
      (true, [] ++ { samplePhoto with title := "T", description := "D" } ::
        [duplicatePhoto], true) ∧
    addTagToPhoto ([] ++ samplePhoto :: [duplicatePhoto]) 7 "t" =
      (true, [] ++ { samplePhoto with tags := samplePhoto.tags ++ ["t"] } ::
        [duplicatePhoto], true) :=
  c10_first_match_agreement [] [duplicatePhoto] samplePhoto 7 "T" "D" "t"
    (by simp) (by decide)
